import Mathlib

/-!
Shallow embedding of the profile-statistics generator: the GitHub API
aggregation client (src/github_api.py), the configuration merge
(src/config.py) and the SVG template substitution engine
(src/svg_generator.py), together with theorems settling the claims
about pagination, error handling, query counters, configuration
merging and token substitution.

Strings are modelled as lists of characters.  Network I/O is modelled
by an oracle: the list of HTTP responses the remote endpoint returns,
consumed one element per issued request.  An exhausted oracle models
the HTTP library itself raising a transport-level error (no HTTP
response at all).
-/

set_option linter.unusedVariables false

abbrev Str := List Char

namespace GithubApi

/-- Operation names: the keys of the query_count dictionary initialised
in GitHubAPI.__init__. -/
inductive OpName where
  | user_getter
  | follower_getter
  | graph_repos_stars
  | recursive_loc
  | graph_commits
  | loc_query
  deriving DecidableEq

/-- The query_count dictionary: one counter per operation name. -/
structure QueryCount where
  user_getter : Nat
  follower_getter : Nat
  graph_repos_stars : Nat
  recursive_loc : Nat
  graph_commits : Nat
  loc_query : Nat
  deriving DecidableEq

/-- The dictionary as initialised in GitHubAPI.__init__: all counters zero. -/
def initQueryCount : QueryCount := ⟨0, 0, 0, 0, 0, 0⟩

/-- The increment `self.query_count[operation_name] += 1` performed at the
top of _make_request, before the HTTP request is issued. -/
def bump (op : OpName) (q : QueryCount) : QueryCount :=
  match op with
  | .user_getter => { q with user_getter := q.user_getter + 1 }
  | .follower_getter => { q with follower_getter := q.follower_getter + 1 }
  | .graph_repos_stars => { q with graph_repos_stars := q.graph_repos_stars + 1 }
  | .recursive_loc => { q with recursive_loc := q.recursive_loc + 1 }
  | .graph_commits => { q with graph_commits := q.graph_commits + 1 }
  | .loc_query => { q with loc_query := q.loc_query + 1 }

/-- n successive increments of the same operation's counter. -/
def bumpN (op : OpName) : Nat → QueryCount → QueryCount
  | 0, q => q
  | n + 1, q => bumpN op n (bump op q)

/-- The dictionary's value view, in insertion order: self.query_count.values(). -/
def queryValues (q : QueryCount) : List Nat :=
  [q.user_getter, q.follower_getter, q.graph_repos_stars,
   q.recursive_loc, q.graph_commits, q.loc_query]

/-- get_total_queries: sum(self.query_count.values()). -/
def get_total_queries (q : QueryCount) : Nat := (queryValues q).sum

/-- One HTTP response from the remote endpoint: its status code, its raw
body text (used in error messages) and its parsed JSON body (read only
when the status is 200). -/
structure Response (β : Type) where
  status : Nat
  text : Str
  body : β
  deriving DecidableEq

/-- Decimal rendering of a number, as Python str() inside the f-string. -/
def natStr (n : Nat) : Str := (Nat.repr n).data

/-- The operation name as the literal string used as dictionary key. -/
def opStr : OpName → Str
  | .user_getter => ("user_getter").data
  | .follower_getter => ("follower_getter").data
  | .graph_repos_stars => ("graph_repos_stars").data
  | .recursive_loc => ("recursive_loc").data
  | .graph_commits => ("graph_commits").data
  | .loc_query => ("loc_query").data

/-- The message of the exception raised by _make_request on a non-200
status: f-string with the operation name, the status code and the
response body text. -/
def errorMessage (op : OpName) (status : Nat) (text : Str) : Str :=
  opStr op ++ (" failed with status ").data ++ natStr status ++ (": ").data ++ text

/-- The message of a transport-level error raised by the HTTP library
itself when no HTTP response arrives (modelled by an exhausted oracle). -/
def noResponseMessage (op : OpName) : Str :=
  opStr op ++ (" request raised without an HTTP response").data

/-- A repository edge node as read from the repository-listing queries:
nameWithOwner, stargazers.totalCount, isFork, isArchived.  Each query
requests a subset of these fields; the record carries the superset. -/
structure RepoNode where
  nameWithOwner : Str
  stars : Nat
  isFork : Bool
  isArchived : Bool
  deriving DecidableEq

/-- The repositories object of one page of a repository-listing
response: totalCount, edges, and pageInfo (endCursor / hasNextPage). -/
structure RepoPage where
  totalCount : Nat
  edges : List RepoNode
  hasNextPage : Bool
  endCursor : Str
  deriving DecidableEq

abbrev RepoOracle := List (Response RepoPage)

/-- The outcome of running a (possibly paginated) repository query:
the counters afterwards, the unconsumed oracle suffix, the cursor value
sent with each issued request (in request order; None is the absent
cursor of the first request), and the returned value or raised error. -/
structure ApiRun (α : Type) where
  counts : QueryCount
  remaining : RepoOracle
  sentCursors : List (Option Str)
  result : α
  deriving DecidableEq

/-- _count_stars: fold the per-edge stargazers.totalCount into a running
total. -/
def count_stars (edges : List RepoNode) : Nat :=
  edges.foldl (fun total_stars edge => total_stars + edge.stars) 0

/-- The while-True loop of _get_total_stars.  Each iteration increments
the graph_repos_stars counter, issues one request with the current
cursor, and on a 200 response adds the page's star count; it recurses
while pageInfo.hasNextPage holds, else returns the total.  A non-200
response raises (Except.error), aborting the loop. -/
def get_total_stars_loop (q : QueryCount) (oracle : RepoOracle) (total_stars : Nat)
    (cursor : Option Str) : ApiRun (Except Str Nat) :=
  match oracle with
  | [] => ⟨bump .graph_repos_stars q, [], [cursor],
      .error (noResponseMessage .graph_repos_stars)⟩
  | resp :: rest =>
    let q' := bump .graph_repos_stars q
    if resp.status = 200 then
      let data := resp.body
      let total' := total_stars + count_stars data.edges
      if data.hasNextPage then
        let run := get_total_stars_loop q' rest total' (some data.endCursor)
        ⟨run.counts, run.remaining, cursor :: run.sentCursors, run.result⟩
      else ⟨q', rest, [cursor], .ok total'⟩
    else ⟨q', rest, [cursor], .error (errorMessage .graph_repos_stars resp.status resp.text)⟩

/-- _get_total_stars: run the pagination loop from a zero total and an
absent cursor. -/
def get_total_stars (q : QueryCount) (oracle : RepoOracle) : ApiRun (Except Str Nat) :=
  get_total_stars_loop q oracle 0 none

/-- get_repository_stats: dispatch on count_type.  'repos' issues a
single request and returns the listing's totalCount; 'stars' delegates
to _get_total_stars; any other count_type falls through (Python
implicitly returns None). -/
def get_repository_stats (q : QueryCount) (count_type : Str) (owner_affiliation : List Str)
    (cursor : Option Str) (oracle : RepoOracle) : ApiRun (Option (Except Str Nat)) :=
  if count_type = ("repos").data then
    match oracle with
    | [] => ⟨bump .graph_repos_stars q, [], [cursor],
        some (.error (noResponseMessage .graph_repos_stars))⟩
    | resp :: rest =>
      let q' := bump .graph_repos_stars q
      if resp.status = 200 then ⟨q', rest, [cursor], some (.ok resp.body.totalCount)⟩
      else ⟨q', rest, [cursor],
        some (.error (errorMessage .graph_repos_stars resp.status resp.text))⟩
  else if count_type = ("stars").data then
    let run := get_total_stars q oracle
    ⟨run.counts, run.remaining, run.sentCursors, some run.result⟩
  else ⟨q, oracle, [], none⟩

/-- The while-True loop of _get_all_repository_edges: one request per
iteration (counter recursive_loc), filtering out forks and archived
repositories from each page, extending the accumulator, and recursing
while pageInfo.hasNextPage holds. -/
def get_all_repository_edges_loop (q : QueryCount) (oracle : RepoOracle)
    (all_edges : List RepoNode) (cursor : Option Str) : ApiRun (Except Str (List RepoNode)) :=
  match oracle with
  | [] => ⟨bump .recursive_loc q, [], [cursor], .error (noResponseMessage .recursive_loc)⟩
  | resp :: rest =>
    let q' := bump .recursive_loc q
    if resp.status = 200 then
      let data := resp.body
      let filtered_edges := data.edges.filter (fun edge => !edge.isFork && !edge.isArchived)
      let all' := all_edges ++ filtered_edges
      if data.hasNextPage then
        let run := get_all_repository_edges_loop q' rest all' (some data.endCursor)
        ⟨run.counts, run.remaining, cursor :: run.sentCursors, run.result⟩
      else ⟨q', rest, [cursor], .ok all'⟩
    else ⟨q', rest, [cursor], .error (errorMessage .recursive_loc resp.status resp.text)⟩

/-- _get_all_repository_edges: run the discovery loop from an empty
accumulator and an absent cursor. -/
def get_all_repository_edges (q : QueryCount) (oracle : RepoOracle) :
    ApiRun (Except Str (List RepoNode)) :=
  get_all_repository_edges_loop q oracle [] none

/-- The user object of the user-info query response: id, createdAt and
the optional profile fields (absent fields are None). -/
structure UserData where
  id : Str
  createdAt : Str
  location : Option Str
  websiteUrl : Option Str
  email : Option Str
  twitterUsername : Option Str
  bio : Option Str
  company : Option Str
  isHireable : Bool
  deriving DecidableEq

/-- The user_info dictionary built by get_user_info from the response. -/
structure UserInfo where
  id : Str
  created_at : Str
  location : Option Str
  website : Option Str
  email : Option Str
  twitter : Option Str
  bio : Option Str
  company : Option Str
  is_hireable : Bool
  deriving DecidableEq

/-- get_user_info: one request under the user_getter counter; on a 200
response, parse the user object into ({'id': ...}, user_info); a
non-200 response raises out of _make_request. -/
def get_user_info (q : QueryCount) (oracle : List (Response UserData)) :
    QueryCount × List (Response UserData) × Except Str (Str × UserInfo) :=
  match oracle with
  | [] => (bump .user_getter q, [], .error (noResponseMessage .user_getter))
  | resp :: rest =>
    let q' := bump .user_getter q
    if resp.status = 200 then
      let u := resp.body
      (q', rest, .ok (u.id,
        ⟨u.id, u.createdAt, u.location, u.websiteUrl, u.email,
         u.twitterUsername, u.bio, u.company, u.isHireable⟩))
    else (q', rest, .error (errorMessage .user_getter resp.status resp.text))

/-- get_follower_count: one request under the follower_getter counter;
on a 200 response return followers.totalCount (the response body); a
non-200 response raises out of _make_request. -/
def get_follower_count (q : QueryCount) (oracle : List (Response Nat)) :
    QueryCount × List (Response Nat) × Except Str Nat :=
  match oracle with
  | [] => (bump .follower_getter q, [], .error (noResponseMessage .follower_getter))
  | resp :: rest =>
    let q' := bump .follower_getter q
    if resp.status = 200 then (q', rest, .ok resp.body)
    else (q', rest, .error (errorMessage .follower_getter resp.status resp.text))

/-- A tiny heap of dictionary objects: a Python dict reference is an
index into this list.  The client's query_count dict lives at one such
index; dict.copy() allocates a fresh object at a fresh index. -/
abbrev DictHeap := List QueryCount

/-- Dereference a dict: read the object a reference points to. -/
def heapGet (h : DictHeap) (r : Nat) : QueryCount := h.getD r initQueryCount

/-- get_query_stats: return self.query_count.copy() — allocate a fresh
dict holding a copy of the client's counters and hand back a reference
to the fresh object, not to the client's own dict. -/
def get_query_stats (h : DictHeap) (client : Nat) : DictHeap × Nat :=
  (h ++ [heapGet h client], h.length)

/-- An in-place mutation a caller may perform on a dict it holds a
reference to. -/
def dictWrite (h : DictHeap) (r : Nat) (v : QueryCount) : DictHeap := h.set r v

/-- The per-repository commit statistics returned by
_get_repository_commit_stats on success: additions, deletions, commits. -/
structure RepoCommitStats where
  additions : Int
  deletions : Int
  commits : Int
  deriving DecidableEq

/-- The list [total_added, total_deleted, total_loc, total_commits,
False] returned by get_lines_of_code, as a record. -/
structure LocResult where
  total_added : Int
  total_deleted : Int
  total_loc : Int
  total_commits : Int
  cached : Bool
  deriving DecidableEq

/-- The mutable totals of the get_lines_of_code loop, together with the
warnings printed so far (in print order). -/
structure LocState where
  total_added : Int
  total_deleted : Int
  total_commits : Int
  warnings : List Str
  deriving DecidableEq

/-- The warning printed when a per-repository fetch raises: names the
repository and the exception. -/
def warningMessage (repo_name : Str) (e : Str) : Str :=
  ("⚠️  Warning: Could not fetch stats for ").data ++ repo_name ++ (": ").data ++ e

/-- Batching helper: the batches edges[i:i+10] visited by
`for i in range(0, len(edges), 10)`, computed with a fuel argument
(one list element is consumed per step, so the list's length is enough
fuel). -/
def chunkAux : Nat → List α → List (List α)
  | _, [] => []
  | 0, l => [l]
  | fuel + 1, x :: xs => ((x :: xs).take 10) :: chunkAux fuel ((x :: xs).drop 10)

/-- The batches of size 10 (the reference batch size) of a list. -/
def chunk10 (l : List α) : List (List α) := chunkAux l.length l

/-- The body of the inner loop of get_lines_of_code: try the
per-repository fetch; on success add its additions/deletions/commits to
the running totals; on an exception print a warning naming the
repository and continue. -/
def process_edge (fetch_repo_stats : Str → Except Str RepoCommitStats)
    (st : LocState) (edge : RepoNode) : LocState :=
  match fetch_repo_stats edge.nameWithOwner with
  | .ok repo_stats =>
      { st with
        total_added := st.total_added + repo_stats.additions,
        total_deleted := st.total_deleted + repo_stats.deletions,
        total_commits := st.total_commits + repo_stats.commits }
  | .error e =>
      { st with warnings := st.warnings ++ [warningMessage edge.nameWithOwner e] }

/-- The aggregation phase of get_lines_of_code over a known edge list:
iterate batch by batch, edge by edge, from zero totals, then return
([total_added, total_deleted, total_added - total_deleted,
total_commits, False]) together with the printed warnings. -/
def process_edges (fetch_repo_stats : Str → Except Str RepoCommitStats)
    (edges : List RepoNode) : LocResult × List Str :=
  let st := (chunk10 edges).foldl
    (fun acc batch => batch.foldl (process_edge fetch_repo_stats) acc) ⟨0, 0, 0, []⟩
  (⟨st.total_added, st.total_deleted, st.total_added - st.total_deleted,
    st.total_commits, false⟩, st.warnings)

/-- get_lines_of_code: when the edges argument is None, first enumerate
all repositories via _get_all_repository_edges (an error there
propagates); then run the per-repository aggregation phase, which never
raises. -/
def get_lines_of_code (q : QueryCount) (oracle : RepoOracle)
    (fetch_repo_stats : Str → Except Str RepoCommitStats)
    (owner_affiliation : List Str) (edges_arg : Option (List RepoNode)) :
    QueryCount × RepoOracle × Except Str (LocResult × List Str) :=
  match edges_arg with
  | some edges => (q, oracle, .ok (process_edges fetch_repo_stats edges))
  | none =>
    let run := get_all_repository_edges q oracle
    match run.result with
    | .error e => (run.counts, run.remaining, .error e)
    | .ok edges => (run.counts, run.remaining, .ok (process_edges fetch_repo_stats edges))

/-- The commit statistics of exactly the repositories whose detail
fetch succeeds, in edge order (the claims' reference value for the
partial totals). -/
def fetched_ok (fetch_repo_stats : Str → Except Str RepoCommitStats)
    (edges : List RepoNode) : List RepoCommitStats :=
  edges.filterMap (fun e => (fetch_repo_stats e.nameWithOwner).toOption)

/-- The repository name and exception message of exactly the
repositories whose detail fetch raises, in edge order. -/
def fetched_err (fetch_repo_stats : Str → Except Str RepoCommitStats)
    (edges : List RepoNode) : List (Str × Str) :=
  edges.filterMap (fun e =>
    match fetch_repo_stats e.nameWithOwner with
    | .ok _ => none
    | .error m => some (e.nameWithOwner, m))

/-- A concrete first page (two repositories, one a fork, next page
announced) used by witnesses. -/
def pageA : Response RepoPage :=
  ⟨200, [], ⟨2, [⟨("user/alpha").data, 3, false, false⟩,
    ⟨("user/beta").data, 4, true, false⟩], true, ("cursorA").data⟩⟩

/-- A concrete last page (one archived repository, no next page) used
by witnesses. -/
def pageB : Response RepoPage :=
  ⟨200, [], ⟨2, [⟨("user/gamma").data, 5, false, true⟩], false, ("cursorB").data⟩⟩

/-- A concrete per-repository fetcher whose deletions exceed its
additions, used by a witness. -/
def w7fetch : Str → Except Str RepoCommitStats := fun _ => .ok ⟨1, 5, 2⟩

/-- A concrete one-repository edge list used by a witness. -/
def w7edges : List RepoNode := [⟨("user/alpha").data, 0, false, false⟩]

/-- A concrete failed user-info response used by a witness. -/
def w8user : Response UserData :=
  ⟨404, ("Not Found").data,
   ⟨("U1").data, ("2020-01-01").data, none, none, none, none, none, none, false⟩⟩

/-- A concrete failed follower-count response used by a witness. -/
def w8follower : Response Nat := ⟨500, ("server error").data, 0⟩

/-- A concrete failed repository-listing response used by a witness. -/
def w8repo : Response RepoPage := ⟨403, ("forbidden").data, ⟨0, [], false, []⟩⟩

end GithubApi

namespace Config

open GithubApi

/-- The social section of the configuration dictionary.  A field is
none when its key is absent from the dict; a present key holds a
string, possibly empty (both absent and empty are falsy in the merge
conditions). -/
structure Social where
  website : Option Str
  twitter : Option Str
  email : Option Str
  deriving DecidableEq

/-- The GitHub-sourced social fields of the user_info record passed to
merge_github_data; none models github_data.get(key) being absent or
None. -/
structure GithubSocial where
  website : Option Str
  twitter : Option Str
  email : Option Str
  deriving DecidableEq

/-- Truthiness of github_data.get(key): a present, non-empty string. -/
def optTruthy : Option Str → Bool
  | none => false
  | some s => !s.isEmpty

/-- The condition (key not in social or not social[key]): the key is
absent, or present with a falsy (empty) value. -/
def fieldUnset : Option Str → Bool
  | none => true
  | some s => s.isEmpty

/-- merge_github_data restricted to the social section: each of
website, twitter, email is written only when the fetched value is
truthy and the configured value is absent or falsy; twitter is stored
with the twitter.com/ prefix.  (The early return on an empty
github_data dict changes nothing: with no truthy fetched field no
condition fires.) -/
def merge_github_data (social : Social) (github_data : GithubSocial) : Social :=
  let s1 := if optTruthy github_data.website && fieldUnset social.website then
    { social with website := github_data.website } else social
  let s2 := if optTruthy github_data.twitter && fieldUnset s1.twitter then
    { s1 with twitter := some (("twitter.com/").data ++ github_data.twitter.getD []) } else s1
  if optTruthy github_data.email && fieldUnset s2.email then
    { s2 with email := github_data.email } else s2

end Config

namespace Svg

/-- Python str.replace(old, new) with a fuel argument: scan left to
right; where old is a prefix of the remaining text, emit new and skip
past the matched occurrence, else keep one character; occurrences are
non-overlapping.  Each step consumes at least one character when old is
non-empty, so the text's length is enough fuel.  (Every token the
source replaces is a fixed non-empty literal; for an empty old the scan
guard fails and the text is returned unchanged.) -/
def replaceAllFuel (t v : Str) : Nat → Str → Str
  | _, [] => []
  | 0, s => s
  | fuel + 1, c :: rest =>
    if t ≠ [] ∧ t.isPrefixOf (c :: rest) then
      v ++ replaceAllFuel t v fuel ((c :: rest).drop t.length)
    else c :: replaceAllFuel t v fuel rest

/-- content.replace(t, v): replace every left-to-right non-overlapping
occurrence of t in s by v. -/
def replaceAll (t v s : Str) : Str := replaceAllFuel t v s.length s

/-- Python s.split(t) with a fuel argument: the maximal t-free pieces
between the left-to-right non-overlapping occurrences of t. -/
def splitOnFuel (t : Str) : Nat → Str → List Str
  | _, [] => [[]]
  | 0, s => [s]
  | fuel + 1, c :: rest =>
    if t ≠ [] ∧ t.isPrefixOf (c :: rest) then
      [] :: splitOnFuel t fuel ((c :: rest).drop t.length)
    else
      match splitOnFuel t fuel rest with
      | [] => [[c]]
      | p :: ps => (c :: p) :: ps

/-- s.split(t): the pieces of s between occurrences of t. -/
def splitOnL (t s : Str) : List Str := splitOnFuel t s.length s

/-- v.join(pieces): interleave v between the pieces. -/
def joinWith (v : Str) : List Str → Str
  | [] => []
  | [p] => p
  | p :: p' :: ps => p ++ v ++ joinWith v (p' :: ps)

/-- The formatted_data dictionary built by _format_data_for_svg: the
thousands-formatted statistic strings. -/
structure FormattedData where
  commit_formatted : Str
  star_formatted : Str
  contrib_formatted : Str
  loc_add_formatted : Str
  loc_del_formatted : Str
  loc_total_formatted : Str
  deriving DecidableEq

/-- The config_data dictionary built by _get_config_data. -/
structure ConfigData where
  server_region : Str
  host_platform : Str
  environment_os : Str
  environment_version : Str
  environment_editor : Str
  packaging_languages : Str
  social_linkedin : Str
  social_twitter : Str
  social_website : Str
  social_email : Str
  deriving DecidableEq

/-- Truthiness of the build_timestamp argument (default None): a
present, non-empty string. -/
def btTruthy : Option Str → Bool
  | none => false
  | some t => !t.isEmpty

/-- The unconditional replacement steps of _apply_replacements, in
source order: the twelve braced tokens, then the three bare literal
strings (twitter handle, website, email) replaced wherever they appear
verbatim. -/
def apply_replacements_base (content : Str) (formatted_data : FormattedData)
    (age_data : Str) (config_data : ConfigData) : Str :=
  let content := replaceAll ("{COMMITS}").data formatted_data.commit_formatted content
  let content := replaceAll ("{CONTRIB}").data formatted_data.contrib_formatted content
  let content := replaceAll ("{STARS}").data formatted_data.star_formatted content
  let content := replaceAll ("{LOC_TOTAL}").data formatted_data.loc_total_formatted content
  let content := replaceAll ("{LOC_ADD}").data formatted_data.loc_add_formatted content
  let content := replaceAll ("{LOC_DEL}").data formatted_data.loc_del_formatted content
  let content := replaceAll ("{AGE}").data age_data content
  let content := replaceAll ("{ENVIRONMENT}").data
    (config_data.environment_os ++ (" (").data ++ config_data.environment_version ++
      (") • ").data ++ config_data.environment_editor) content
  let content := replaceAll ("{LANGUAGES}").data config_data.packaging_languages content
  let content := replaceAll ("{SERVER_REGION}").data config_data.server_region content
  let content := replaceAll ("{HOST_PLATFORM}").data config_data.host_platform content
  let content := replaceAll ("{LINKEDIN}").data config_data.social_linkedin content
  let content := replaceAll ("twitter.com/lelborn").data config_data.social_twitter content
  let content := replaceAll ("lewiselborn.com").data config_data.social_website content
  let content := replaceAll ("lewis@lewiselborn.com").data config_data.social_email content
  content

/-- _apply_replacements: the unconditional steps in source order, then,
only if build_timestamp is truthy, the BUILD_TIMESTAMP replacement. -/
def apply_replacements (content : Str) (formatted_data : FormattedData)
    (age_data : Str) (config_data : ConfigData) (build_timestamp : Option Str) : Str :=
  let content := apply_replacements_base content formatted_data age_data config_data
  if btTruthy build_timestamp then
    replaceAll ("{BUILD_TIMESTAMP}").data (build_timestamp.getD []) content
  else content

/-- The tokens of the unconditional steps, in the order the steps run. -/
def base_tokens : List Str :=
  [("{COMMITS}").data, ("{CONTRIB}").data, ("{STARS}").data,
   ("{LOC_TOTAL}").data, ("{LOC_ADD}").data, ("{LOC_DEL}").data,
   ("{AGE}").data, ("{ENVIRONMENT}").data, ("{LANGUAGES}").data,
   ("{SERVER_REGION}").data, ("{HOST_PLATFORM}").data, ("{LINKEDIN}").data,
   ("twitter.com/lelborn").data, ("lewiselborn.com").data,
   ("lewis@lewiselborn.com").data]

/-- All recognized replacement tokens, the conditional BUILD_TIMESTAMP
token included. -/
def all_tokens : List Str := base_tokens ++ [("{BUILD_TIMESTAMP}").data]

/-- The same replacement steps as _apply_replacements, but with the
bare website and email literal steps interchanged; used to exhibit
dependence of the final text on step order. -/
def apply_replacements_swapped (content : Str) (formatted_data : FormattedData)
    (age_data : Str) (config_data : ConfigData) (build_timestamp : Option Str) : Str :=
  let content := replaceAll ("{COMMITS}").data formatted_data.commit_formatted content
  let content := replaceAll ("{CONTRIB}").data formatted_data.contrib_formatted content
  let content := replaceAll ("{STARS}").data formatted_data.star_formatted content
  let content := replaceAll ("{LOC_TOTAL}").data formatted_data.loc_total_formatted content
  let content := replaceAll ("{LOC_ADD}").data formatted_data.loc_add_formatted content
  let content := replaceAll ("{LOC_DEL}").data formatted_data.loc_del_formatted content
  let content := replaceAll ("{AGE}").data age_data content
  let content := replaceAll ("{ENVIRONMENT}").data
    (config_data.environment_os ++ (" (").data ++ config_data.environment_version ++
      (") • ").data ++ config_data.environment_editor) content
  let content := replaceAll ("{LANGUAGES}").data config_data.packaging_languages content
  let content := replaceAll ("{SERVER_REGION}").data config_data.server_region content
  let content := replaceAll ("{HOST_PLATFORM}").data config_data.host_platform content
  let content := replaceAll ("{LINKEDIN}").data config_data.social_linkedin content
  let content := replaceAll ("twitter.com/lelborn").data config_data.social_twitter content
  let content := replaceAll ("lewis@lewiselborn.com").data config_data.social_email content
  let content := replaceAll ("lewiselborn.com").data config_data.social_website content
  if btTruthy build_timestamp then
    replaceAll ("{BUILD_TIMESTAMP}").data (build_timestamp.getD []) content
  else content

/-- Concrete formatted statistics used by counterexample and
witnesses. -/
def cexFormatted : FormattedData :=
  ⟨("1").data, ("2").data, ("3").data, ("4").data, ("5").data, ("6").data⟩

/-- Concrete configuration values used by counterexample and
witnesses: website value W, email value E, a neutral letter
elsewhere. -/
def cexConfig : ConfigData :=
  ⟨("r").data, ("h").data, ("o").data, ("v").data, ("e").data,
   ("l").data, ("k").data, ("t").data, ("W").data, ("E").data⟩

lemma replaceAllFuel_id_of_absent (t v : Str) :
    ∀ (fuel : Nat) (s : Str), ¬ t <:+: s → replaceAllFuel t v fuel s = s := by
  intro fuel
  induction fuel with
  | zero => intro s h; cases s <;> rfl
  | succ n ih =>
    intro s h
    cases s with
    | nil => rfl
    | cons c rest =>
      rw [replaceAllFuel, if_neg, ih rest (fun hin => h (List.infix_cons hin))]
      rintro ⟨hne, hpre⟩
      exact h (List.IsPrefix.isInfix (List.isPrefixOf_iff_prefix.mp hpre))

/-- A text not containing the token is unchanged by its replacement
step. -/
lemma replaceAll_id_of_absent (t v s : Str) (h : ¬ t <:+: s) : replaceAll t v s = s :=
  replaceAllFuel_id_of_absent t v s.length s h

lemma splitOnFuel_ne_nil (t : Str) : ∀ (fuel : Nat) (s : Str), splitOnFuel t fuel s ≠ [] := by
  intro fuel
  induction fuel with
  | zero => intro s; cases s <;> simp [splitOnFuel]
  | succ n ih =>
    intro s
    cases s with
    | nil => simp [splitOnFuel]
    | cons c rest =>
      rw [splitOnFuel]
      split
      · simp
      · cases h : splitOnFuel t n rest <;> simp

lemma joinWith_cons_cons (v : Str) (c : Char) (p : Str) (ps : List Str) :
    joinWith v ((c :: p) :: ps) = c :: joinWith v (p :: ps) := by
  cases ps <;> simp [joinWith]

lemma replaceAllFuel_eq_joinWith (t v : Str) :
    ∀ (fuel : Nat) (s : Str), replaceAllFuel t v fuel s = joinWith v (splitOnFuel t fuel s) := by
  intro fuel
  induction fuel with
  | zero => intro s; cases s <;> simp [replaceAllFuel, splitOnFuel, joinWith]
  | succ n ih =>
    intro s
    cases s with
    | nil => simp [replaceAllFuel, splitOnFuel, joinWith]
    | cons c rest =>
      rw [replaceAllFuel, splitOnFuel]
      split
      · rcases h : splitOnFuel t n ((c :: rest).drop t.length) with _ | ⟨p, ps⟩
        · exact absurd h (splitOnFuel_ne_nil t n _)
        · rw [ih, h]
          cases ps <;> simp [joinWith]
      · rcases h : splitOnFuel t n rest with _ | ⟨p, ps⟩
        · exact absurd h (splitOnFuel_ne_nil t n rest)
        · rw [joinWith_cons_cons, ← h, ← ih]

/-- str.replace equals joining the split pieces with the new value. -/
lemma replaceAll_eq_joinWith (t v s : Str) :
    replaceAll t v s = joinWith v (splitOnL t s) :=
  replaceAllFuel_eq_joinWith t v s.length s

lemma splitOnFuel_head_prefix (t : Str) :
    ∀ (fuel : Nat) (s p : Str) (ps : List Str), splitOnFuel t fuel s = p :: ps → p <+: s := by
  intro fuel
  induction fuel with
  | zero =>
    intro s p ps h
    cases s with
    | nil => simp [splitOnFuel] at h; simp [h.1]
    | cons c rest => simp [splitOnFuel] at h; simp [← h.1]
  | succ n ih =>
    intro s p ps h
    cases s with
    | nil => simp [splitOnFuel] at h; simp [h.1]
    | cons c rest =>
      rw [splitOnFuel] at h
      split at h
      · rw [List.cons_eq_cons] at h
        rw [← h.1]
        exact List.nil_prefix
      · rcases h2 : splitOnFuel t n rest with _ | ⟨p', ps'⟩
        · rw [h2] at h
          rw [List.cons_eq_cons] at h
          rw [← h.1]
          simp
        · rw [h2] at h
          rw [List.cons_eq_cons] at h
          rw [← h.1]
          exact List.cons_prefix_cons.mpr ⟨rfl, ih rest p' ps' h2⟩

lemma splitOnFuel_pieces_free (t : Str) (ht : t ≠ []) :
    ∀ (fuel : Nat) (s : Str), s.length ≤ fuel →
      ∀ p ∈ splitOnFuel t fuel s, ¬ t <:+: p := by
  intro fuel
  induction fuel with
  | zero =>
    intro s hlen p hp
    have : s = [] := List.length_eq_zero.mp (Nat.le_zero.mp hlen)
    subst this
    simp [splitOnFuel] at hp
    subst hp
    simp [List.infix_nil, ht]
  | succ n ih =>
    intro s hlen p hp
    cases s with
    | nil =>
      simp [splitOnFuel] at hp
      subst hp
      simp [List.infix_nil, ht]
    | cons c rest =>
      rw [splitOnFuel] at hp
      split at hp
      · rename_i hguard
        rcases List.mem_cons.mp hp with h | h
        · subst h; simp [List.infix_nil, ht]
        · refine ih ((c :: rest).drop t.length) ?_ p h
          have h1 : 1 ≤ t.length := List.length_pos.mpr ht
          simp only [List.length_cons] at hlen
          simp only [List.length_drop, List.length_cons]
          omega
      · rename_i hguard
        rcases h2 : splitOnFuel t n rest with _ | ⟨p', ps'⟩
        · exact absurd h2 (splitOnFuel_ne_nil t n rest)
        · rw [h2] at hp
          have hrest : rest.length ≤ n := by
            simp only [List.length_cons] at hlen; omega
          rcases List.mem_cons.mp hp with h | h
          · subst h
            intro hinf
            rcases List.infix_cons_iff.mp hinf with hpre | hinf'
            · have hp'pre : p' <+: rest := splitOnFuel_head_prefix t n rest p' ps' h2
              have hcc : c :: p' <+: c :: rest := List.cons_prefix_cons.mpr ⟨rfl, hp'pre⟩
              exact hguard ⟨ht, List.isPrefixOf_iff_prefix.mpr (hpre.trans hcc)⟩
            · exact ih rest hrest p'
                (by rw [h2]; exact List.mem_cons_self p' ps') hinf'
          · exact ih rest hrest p (by rw [h2]; exact List.mem_cons_of_mem p' h)

end Svg

namespace GithubApi

lemma foldl_stars (edges : List RepoNode) :
    ∀ acc : Nat, edges.foldl (fun total_stars edge => total_stars + edge.stars) acc =
      acc + (edges.map RepoNode.stars).sum := by
  induction edges with
  | nil => intro acc; simp
  | cons e es ih => intro acc; simp [List.foldl_cons, ih, Nat.add_assoc]

/-- _count_stars computes the sum of the per-repository star counts of
the page's edges. -/
lemma count_stars_eq (edges : List RepoNode) :
    count_stars edges = (edges.map RepoNode.stars).sum := by
  simp [count_stars, foldl_stars]

lemma get_total_stars_loop_cons (q : QueryCount) (resp : Response RepoPage)
    (rest : RepoOracle) (total : Nat) (cursor : Option Str) :
    get_total_stars_loop q (resp :: rest) total cursor =
      if resp.status = 200 then
        if resp.body.hasNextPage then
          ⟨(get_total_stars_loop (bump .graph_repos_stars q) rest
              (total + count_stars resp.body.edges) (some resp.body.endCursor)).counts,
           (get_total_stars_loop (bump .graph_repos_stars q) rest
              (total + count_stars resp.body.edges) (some resp.body.endCursor)).remaining,
           cursor :: (get_total_stars_loop (bump .graph_repos_stars q) rest
              (total + count_stars resp.body.edges) (some resp.body.endCursor)).sentCursors,
           (get_total_stars_loop (bump .graph_repos_stars q) rest
              (total + count_stars resp.body.edges) (some resp.body.endCursor)).result⟩
        else ⟨bump .graph_repos_stars q, rest, [cursor],
          .ok (total + count_stars resp.body.edges)⟩
      else ⟨bump .graph_repos_stars q, rest, [cursor],
        .error (errorMessage .graph_repos_stars resp.status resp.text)⟩ := rfl

lemma get_all_repository_edges_loop_cons (q : QueryCount) (resp : Response RepoPage)
    (rest : RepoOracle) (acc : List RepoNode) (cursor : Option Str) :
    get_all_repository_edges_loop q (resp :: rest) acc cursor =
      if resp.status = 200 then
        if resp.body.hasNextPage then
          ⟨(get_all_repository_edges_loop (bump .recursive_loc q) rest
              (acc ++ resp.body.edges.filter (fun e => !e.isFork && !e.isArchived))
              (some resp.body.endCursor)).counts,
           (get_all_repository_edges_loop (bump .recursive_loc q) rest
              (acc ++ resp.body.edges.filter (fun e => !e.isFork && !e.isArchived))
              (some resp.body.endCursor)).remaining,
           cursor :: (get_all_repository_edges_loop (bump .recursive_loc q) rest
              (acc ++ resp.body.edges.filter (fun e => !e.isFork && !e.isArchived))
              (some resp.body.endCursor)).sentCursors,
           (get_all_repository_edges_loop (bump .recursive_loc q) rest
              (acc ++ resp.body.edges.filter (fun e => !e.isFork && !e.isArchived))
              (some resp.body.endCursor)).result⟩
        else ⟨bump .recursive_loc q, rest, [cursor],
          .ok (acc ++ resp.body.edges.filter (fun e => !e.isFork && !e.isArchived))⟩
      else ⟨bump .recursive_loc q, rest, [cursor],
        .error (errorMessage .recursive_loc resp.status resp.text)⟩ := rfl

/-- Full characterisation of the _get_total_stars pagination loop on a
well-formed page listing (every page before the last reports
hasNextPage, the last does not): it issues exactly one request per
page, the first with the starting cursor and each following one with
the previous page's endCursor, leaves the rest of the oracle
unconsumed, and returns the accumulated star total over all pages. -/
lemma get_total_stars_loop_spec (pages : RepoOracle) :
    ∀ (hne : pages ≠ [])
      (h200 : ∀ r ∈ pages, r.status = 200)
      (hmid : ∀ r ∈ pages.dropLast, r.body.hasNextPage = true)
      (hlast : (pages.getLast hne).body.hasNextPage = false)
      (extra : RepoOracle) (q : QueryCount) (total : Nat) (cursor : Option Str),
    get_total_stars_loop q (pages ++ extra) total cursor =
      ⟨bumpN .graph_repos_stars pages.length q, extra,
       cursor :: pages.dropLast.map (fun r => some r.body.endCursor),
       .ok (total + (pages.map (fun r => count_stars r.body.edges)).sum)⟩ := by
  induction pages with
  | nil => intro hne; exact absurd rfl hne
  | cons p rest ih =>
    intro hne h200 hmid hlast extra q total cursor
    have hp200 : p.status = 200 := h200 p (List.mem_cons_self p rest)
    cases rest with
    | nil =>
      have hlast' : p.body.hasNextPage = false := hlast
      simp [get_total_stars_loop, hp200, hlast', bumpN]
    | cons p' rest' =>
      have hmid0 : p.body.hasNextPage = true :=
        hmid p (by rw [List.dropLast_cons₂]; exact List.mem_cons_self p _)
      have hne' : p' :: rest' ≠ [] := List.cons_ne_nil p' rest'
      have hlast' : ((p' :: rest').getLast hne').body.hasNextPage = false := by
        rw [← List.getLast_cons hne']
        exact hlast
      have ih' := ih hne' (fun r hr => h200 r (List.mem_cons_of_mem p hr))
        (fun r hr => hmid r (by rw [List.dropLast_cons₂]; exact List.mem_cons_of_mem p hr))
        hlast' extra (bump .graph_repos_stars q) (total + count_stars p.body.edges)
        (some p.body.endCursor)
      rw [List.cons_append, get_total_stars_loop_cons, if_pos hp200, if_pos hmid0]
      rw [ih']
      simp [bumpN, List.dropLast_cons₂, Nat.add_assoc]

/-- Full characterisation of the _get_all_repository_edges pagination
loop on a well-formed page listing: one request per page with the same
cursor discipline, and the accumulator extended page by page with the
non-fork, non-archived edges. -/
lemma get_all_repository_edges_loop_spec (pages : RepoOracle) :
    ∀ (hne : pages ≠ [])
      (h200 : ∀ r ∈ pages, r.status = 200)
      (hmid : ∀ r ∈ pages.dropLast, r.body.hasNextPage = true)
      (hlast : (pages.getLast hne).body.hasNextPage = false)
      (extra : RepoOracle) (q : QueryCount) (acc : List RepoNode) (cursor : Option Str),
    get_all_repository_edges_loop q (pages ++ extra) acc cursor =
      ⟨bumpN .recursive_loc pages.length q, extra,
       cursor :: pages.dropLast.map (fun r => some r.body.endCursor),
       .ok (acc ++ (pages.map
         (fun r => r.body.edges.filter (fun e => !e.isFork && !e.isArchived))).flatten)⟩ := by
  induction pages with
  | nil => intro hne; exact absurd rfl hne
  | cons p rest ih =>
    intro hne h200 hmid hlast extra q acc cursor
    have hp200 : p.status = 200 := h200 p (List.mem_cons_self p rest)
    cases rest with
    | nil =>
      have hlast' : p.body.hasNextPage = false := hlast
      simp [get_all_repository_edges_loop, hp200, hlast', bumpN]
    | cons p' rest' =>
      have hmid0 : p.body.hasNextPage = true :=
        hmid p (by rw [List.dropLast_cons₂]; exact List.mem_cons_self p _)
      have hne' : p' :: rest' ≠ [] := List.cons_ne_nil p' rest'
      have hlast' : ((p' :: rest').getLast hne').body.hasNextPage = false := by
        rw [← List.getLast_cons hne']
        exact hlast
      have ih' := ih hne' (fun r hr => h200 r (List.mem_cons_of_mem p hr))
        (fun r hr => hmid r (by rw [List.dropLast_cons₂]; exact List.mem_cons_of_mem p hr))
        hlast' extra (bump .recursive_loc q)
        (acc ++ p.body.edges.filter (fun e => !e.isFork && !e.isArchived))
        (some p.body.endCursor)
      rw [List.cons_append, get_all_repository_edges_loop_cons, if_pos hp200, if_pos hmid0]
      rw [ih']
      simp [bumpN, List.dropLast_cons₂, List.append_assoc]

lemma chunkAux_flatten : ∀ (fuel : Nat) (l : List α), l.length ≤ fuel →
    (chunkAux fuel l).flatten = l := by
  intro fuel
  induction fuel with
  | zero =>
    intro l h
    have : l = [] := List.length_eq_zero.mp (Nat.le_zero.mp h)
    subst this
    rfl
  | succ n ih =>
    intro l h
    cases l with
    | nil => rfl
    | cons x xs =>
      have hle : ((x :: xs).drop 10).length ≤ n := by
        simp only [List.length_drop, List.length_cons]
        simp only [List.length_cons] at h
        omega
      rw [chunkAux, List.flatten_cons, ih ((x :: xs).drop 10) hle]
      exact List.take_append_drop 10 (x :: xs)

/-- The size-10 batches of the edge list concatenate back to the edge
list: batching only paces requests, it visits each edge once. -/
lemma chunk10_flatten (l : List α) : (chunk10 l).flatten = l :=
  chunkAux_flatten l.length l le_rfl

lemma foldl_batches (f : β → α → β) : ∀ (L : List (List α)) (st : β),
    L.foldl (fun acc batch => batch.foldl f acc) st = L.flatten.foldl f st := by
  intro L
  induction L with
  | nil => intro st; rfl
  | cons b bs ih =>
    intro st
    simp [List.foldl_cons, List.flatten_cons, List.foldl_append, ih]

/-- The edge-by-edge fold of get_lines_of_code: the totals grow by the
sums over the successful fetches only, and one warning naming each
failed repository is printed, in order. -/
lemma process_edges_foldl (fetch_repo_stats : Str → Except Str RepoCommitStats) :
    ∀ (edges : List RepoNode) (st : LocState),
    edges.foldl (process_edge fetch_repo_stats) st =
      ⟨st.total_added + ((fetched_ok fetch_repo_stats edges).map RepoCommitStats.additions).sum,
       st.total_deleted + ((fetched_ok fetch_repo_stats edges).map RepoCommitStats.deletions).sum,
       st.total_commits + ((fetched_ok fetch_repo_stats edges).map RepoCommitStats.commits).sum,
       st.warnings ++ (fetched_err fetch_repo_stats edges).map
         (fun p => warningMessage p.1 p.2)⟩ := by
  intro edges
  induction edges with
  | nil =>
    intro st
    cases st
    simp [fetched_ok, fetched_err]
  | cons e es ih =>
    intro st
    rw [List.foldl_cons, ih]
    cases hfe : fetch_repo_stats e.nameWithOwner with
    | ok rs =>
      simp [process_edge, hfe, fetched_ok, fetched_err, List.filterMap_cons,
        Except.toOption, Int.add_assoc]
    | error m =>
      simp [process_edge, hfe, fetched_ok, fetched_err, List.filterMap_cons,
        Except.toOption, List.append_assoc]

end GithubApi

namespace GithubApi

/-- C1: For every affiliation set and every sequence of repository
pages returned by the remote API (each page before the last announcing
a next page, the last announcing none), get_repository_stats with
count_type 'stars' — reaching _get_total_stars — returns the sum of
the per-repository star counts of every repository returned across all
pages of the listing, accumulating page by page until the API reports
no further page. -/
theorem get_total_stars_sums_all_pages
    (owner_affiliation : List Str) (q : QueryCount) (cursor : Option Str)
    (pages extra : RepoOracle) (hne : pages ≠ [])
    (h200 : ∀ r ∈ pages, r.status = 200)
    (hmid : ∀ r ∈ pages.dropLast, r.body.hasNextPage = true)
    (hlast : (pages.getLast hne).body.hasNextPage = false) :
    (get_repository_stats q ("stars").data owner_affiliation cursor (pages ++ extra)).result
      = some (.ok ((pages.map (fun r => (r.body.edges.map RepoNode.stars).sum)).sum)) := by
  have hspec := get_total_stars_loop_spec pages hne h200 hmid hlast extra q 0 none
  unfold get_repository_stats
  rw [if_neg (by decide : ¬ (("stars").data = ("repos").data))]
  rw [if_pos (rfl : ("stars").data = ("stars").data)]
  rw [get_total_stars, hspec]
  simp [count_stars_eq]

/-- C1 witness: a two-page listing with star counts 3 + 4 and 5. -/
theorem get_total_stars_sums_all_pages_witness :
    (get_repository_stats initQueryCount ("stars").data [("OWNER").data] none
      ([pageA, pageB] ++ [])).result
      = some (.ok (([pageA, pageB].map
          (fun r => (r.body.edges.map RepoNode.stars).sum)).sum)) :=
  get_total_stars_sums_all_pages [("OWNER").data] initQueryCount none
    [pageA, pageB] [] (by decide) (by decide) (by decide) (by decide)

end GithubApi

namespace GithubApi

lemma sent_cursors_nodup (cs : List Str) (h : cs.Nodup) :
    ((none : Option Str) :: cs.map some).Nodup := by
  rw [List.nodup_cons]
  constructor
  · intro hmem
    rcases List.mem_map.mp hmem with ⟨c, _, hc⟩
    exact Option.noConfusion hc
  · exact h.map (Option.some_injective Str)

/-- C2: On a finite page sequence whose last page reports no next
page (and every earlier page reports one), each pagination loop — the
star aggregation and the repository discovery for lines-of-code —
terminates after performing exactly one request per page: it leaves
later oracle entries unconsumed, sends the absent cursor first and then
exactly the endCursor of each page but the last, and, provided the
API-supplied end cursors are pairwise distinct, never sends the same
consumed cursor twice. -/
theorem pagination_request_discipline
    (q q2 : QueryCount) (pagesS extraS pagesE extraE : RepoOracle)
    (hneS : pagesS ≠ [])
    (h200S : ∀ r ∈ pagesS, r.status = 200)
    (hmidS : ∀ r ∈ pagesS.dropLast, r.body.hasNextPage = true)
    (hlastS : (pagesS.getLast hneS).body.hasNextPage = false)
    (hneE : pagesE ≠ [])
    (h200E : ∀ r ∈ pagesE, r.status = 200)
    (hmidE : ∀ r ∈ pagesE.dropLast, r.body.hasNextPage = true)
    (hlastE : (pagesE.getLast hneE).body.hasNextPage = false) :
    ((get_total_stars q (pagesS ++ extraS)).sentCursors.length = pagesS.length ∧
     (get_total_stars q (pagesS ++ extraS)).remaining = extraS ∧
     (get_total_stars q (pagesS ++ extraS)).sentCursors =
       none :: pagesS.dropLast.map (fun r => some r.body.endCursor) ∧
     ((pagesS.dropLast.map (fun r => r.body.endCursor)).Nodup →
       (get_total_stars q (pagesS ++ extraS)).sentCursors.Nodup)) ∧
    ((get_all_repository_edges q2 (pagesE ++ extraE)).sentCursors.length = pagesE.length ∧
     (get_all_repository_edges q2 (pagesE ++ extraE)).remaining = extraE ∧
     (get_all_repository_edges q2 (pagesE ++ extraE)).sentCursors =
       none :: pagesE.dropLast.map (fun r => some r.body.endCursor) ∧
     ((pagesE.dropLast.map (fun r => r.body.endCursor)).Nodup →
       (get_all_repository_edges q2 (pagesE ++ extraE)).sentCursors.Nodup)) := by
  have hS := get_total_stars_loop_spec pagesS hneS h200S hmidS hlastS extraS q 0 none
  have hE := get_all_repository_edges_loop_spec pagesE hneE h200E hmidE hlastE extraE q2 [] none
  rw [get_total_stars, hS, get_all_repository_edges, hE]
  have hposS : 0 < pagesS.length := List.length_pos.mpr hneS
  have hposE : 0 < pagesE.length := List.length_pos.mpr hneE
  refine ⟨⟨?_, rfl, rfl, ?_⟩, ⟨?_, rfl, rfl, ?_⟩⟩
  · simp only [List.length_cons, List.length_map, List.length_dropLast]
    omega
  · intro hnd
    have := sent_cursors_nodup (pagesS.dropLast.map (fun r => r.body.endCursor)) hnd
    simpa [List.map_map, Function.comp] using this
  · simp only [List.length_cons, List.length_map, List.length_dropLast]
    omega
  · intro hnd
    have := sent_cursors_nodup (pagesE.dropLast.map (fun r => r.body.endCursor)) hnd
    simpa [List.map_map, Function.comp] using this

/-- C2 witness: the concrete two-page listing, run through both loops. -/
theorem pagination_request_discipline_witness :
    ((get_total_stars initQueryCount ([pageA, pageB] ++ [])).sentCursors.length = 2 ∧
     (get_total_stars initQueryCount ([pageA, pageB] ++ [])).remaining = [] ∧
     (get_total_stars initQueryCount ([pageA, pageB] ++ [])).sentCursors =
       none :: [pageA, pageB].dropLast.map (fun r => some r.body.endCursor) ∧
     (([pageA, pageB].dropLast.map (fun r => r.body.endCursor)).Nodup →
       (get_total_stars initQueryCount ([pageA, pageB] ++ [])).sentCursors.Nodup)) ∧
    ((get_all_repository_edges initQueryCount ([pageA, pageB] ++ [])).sentCursors.length = 2 ∧
     (get_all_repository_edges initQueryCount ([pageA, pageB] ++ [])).remaining = [] ∧
     (get_all_repository_edges initQueryCount ([pageA, pageB] ++ [])).sentCursors =
       none :: [pageA, pageB].dropLast.map (fun r => some r.body.endCursor) ∧
     (([pageA, pageB].dropLast.map (fun r => r.body.endCursor)).Nodup →
       (get_all_repository_edges initQueryCount ([pageA, pageB] ++ [])).sentCursors.Nodup)) :=
  pagination_request_discipline initQueryCount initQueryCount
    [pageA, pageB] [] [pageA, pageB] []
    (by decide) (by decide) (by decide) (by decide)
    (by decide) (by decide) (by decide) (by decide)

end GithubApi

namespace GithubApi

/-- C3: During lines-of-code aggregation a per-repository fetch that
raises is caught individually, recorded as a warning naming the
repository, and skipped; the aggregation is never aborted (it returns
normally), and the returned added/deleted/commit totals are the sums
over exactly the repositories whose detail fetch succeeded. -/
theorem lines_of_code_partial_totals
    (fetch_repo_stats : Str → Except Str RepoCommitStats) (edges : List RepoNode)
    (q : QueryCount) (oracle : RepoOracle) (owner_affiliation : List Str) :
    (get_lines_of_code q oracle fetch_repo_stats owner_affiliation (some edges)).2.2 =
      .ok (process_edges fetch_repo_stats edges) ∧
    (process_edges fetch_repo_stats edges).1.total_added =
      ((fetched_ok fetch_repo_stats edges).map RepoCommitStats.additions).sum ∧
    (process_edges fetch_repo_stats edges).1.total_deleted =
      ((fetched_ok fetch_repo_stats edges).map RepoCommitStats.deletions).sum ∧
    (process_edges fetch_repo_stats edges).1.total_commits =
      ((fetched_ok fetch_repo_stats edges).map RepoCommitStats.commits).sum ∧
    (process_edges fetch_repo_stats edges).2 =
      (fetched_err fetch_repo_stats edges).map (fun p => warningMessage p.1 p.2) ∧
    (∀ repo_name e, repo_name <:+: warningMessage repo_name e) := by
  have hfold : (chunk10 edges).foldl
      (fun acc batch => batch.foldl (process_edge fetch_repo_stats) acc)
      (⟨0, 0, 0, []⟩ : LocState) =
      edges.foldl (process_edge fetch_repo_stats) ⟨0, 0, 0, []⟩ := by
    rw [foldl_batches, chunk10_flatten]
  have hmain : process_edges fetch_repo_stats edges =
      (⟨((fetched_ok fetch_repo_stats edges).map RepoCommitStats.additions).sum,
        ((fetched_ok fetch_repo_stats edges).map RepoCommitStats.deletions).sum,
        ((fetched_ok fetch_repo_stats edges).map RepoCommitStats.additions).sum -
          ((fetched_ok fetch_repo_stats edges).map RepoCommitStats.deletions).sum,
        ((fetched_ok fetch_repo_stats edges).map RepoCommitStats.commits).sum, false⟩,
       (fetched_err fetch_repo_stats edges).map (fun p => warningMessage p.1 p.2)) := by
    simp only [process_edges]
    rw [hfold, process_edges_foldl]
    simp
  refine ⟨rfl, ?_, ?_, ?_, ?_, ?_⟩
  · rw [hmain]
  · rw [hmain]
  · rw [hmain]
  · rw [hmain]
  · intro repo_name e
    exact ⟨("⚠️  Warning: Could not fetch stats for ").data, (": ").data ++ e,
      by simp [warningMessage, List.append_assoc]⟩

/-- C7: The lines-of-code result always satisfies
total = added - deleted; a negative total (deleted exceeding added) is
returned as a normal result, not an error. -/
theorem lines_of_code_total_equation
    (fetch_repo_stats : Str → Except Str RepoCommitStats) (edges : List RepoNode)
    (q : QueryCount) (oracle : RepoOracle) (owner_affiliation : List Str) :
    (process_edges fetch_repo_stats edges).1.total_loc =
      (process_edges fetch_repo_stats edges).1.total_added -
        (process_edges fetch_repo_stats edges).1.total_deleted ∧
    (get_lines_of_code q oracle fetch_repo_stats owner_affiliation (some edges)).2.2 =
      .ok (process_edges fetch_repo_stats edges) ∧
    ((process_edges fetch_repo_stats edges).1.total_deleted >
        (process_edges fetch_repo_stats edges).1.total_added →
      (process_edges fetch_repo_stats edges).1.total_loc < 0) := by
  refine ⟨rfl, rfl, ?_⟩
  intro h
  have e1 : (process_edges fetch_repo_stats edges).1.total_loc =
      (process_edges fetch_repo_stats edges).1.total_added -
        (process_edges fetch_repo_stats edges).1.total_deleted := rfl
  omega

/-- C7 witness: a fetcher reporting 1 addition and 5 deletions yields
the negative total -4 as an ordinary result. -/
theorem lines_of_code_total_equation_witness :
    (process_edges w7fetch w7edges).1.total_loc < 0 :=
  (lines_of_code_total_equation w7fetch w7edges initQueryCount [] []).2.2 (by decide)

end GithubApi

namespace GithubApi

/-- C8: For every discovery-phase operation (user info, follower
count, repository count, star query), a non-success response makes the
operation fail with the raised error carrying the operation's name,
the HTTP status and the response body; exactly one request is consumed
per single-shot call (no retry), and the failure propagates to the
caller as the operation's result. -/
theorem discovery_error_fatal
    (q : QueryCount) (owner_affiliation : List Str) (cursor : Option Str)
    (ru : Response UserData) (restU : List (Response UserData))
    (rf : Response Nat) (restF : List (Response Nat))
    (rr rs : Response RepoPage) (restR restS : RepoOracle)
    (hu : ru.status ≠ 200) (hf : rf.status ≠ 200)
    (hr : rr.status ≠ 200) (hs : rs.status ≠ 200) :
    get_user_info q (ru :: restU) =
      (bump .user_getter q, restU, .error (errorMessage .user_getter ru.status ru.text)) ∧
    get_follower_count q (rf :: restF) =
      (bump .follower_getter q, restF, .error (errorMessage .follower_getter rf.status rf.text)) ∧
    get_repository_stats q ("repos").data owner_affiliation cursor (rr :: restR) =
      ⟨bump .graph_repos_stars q, restR, [cursor],
        some (.error (errorMessage .graph_repos_stars rr.status rr.text))⟩ ∧
    get_repository_stats q ("stars").data owner_affiliation cursor (rs :: restS) =
      ⟨bump .graph_repos_stars q, restS, [none],
        some (.error (errorMessage .graph_repos_stars rs.status rs.text))⟩ ∧
    (∀ op status text, opStr op <+: errorMessage op status text ∧
      natStr status <:+: errorMessage op status text ∧
      text <:+ errorMessage op status text) := by
  refine ⟨?_, ?_, ?_, ?_, ?_⟩
  · simp [get_user_info, hu]
  · simp [get_follower_count, hf]
  · rw [get_repository_stats, if_pos (rfl : ("repos").data = ("repos").data)]
    simp [hr]
  · rw [get_repository_stats]
    rw [if_neg (by decide : ¬ (("stars").data = ("repos").data))]
    rw [if_pos (rfl : ("stars").data = ("stars").data)]
    rw [get_total_stars, get_total_stars_loop_cons, if_neg hs]
  · intro op status text
    refine ⟨⟨(" failed with status ").data ++ natStr status ++ (": ").data ++ text,
        by simp [errorMessage, List.append_assoc]⟩,
      ⟨opStr op ++ (" failed with status ").data, (": ").data ++ text,
        by simp [errorMessage, List.append_assoc]⟩,
      ⟨opStr op ++ (" failed with status ").data ++ natStr status ++ (": ").data,
        by simp [errorMessage, List.append_assoc]⟩⟩

/-- C8 witness: concrete 404/500/403 responses through each operation. -/
theorem discovery_error_fatal_witness :
    get_user_info initQueryCount [w8user] =
      (bump .user_getter initQueryCount, [],
        .error (errorMessage .user_getter w8user.status w8user.text)) ∧
    get_follower_count initQueryCount [w8follower] =
      (bump .follower_getter initQueryCount, [],
        .error (errorMessage .follower_getter w8follower.status w8follower.text)) ∧
    get_repository_stats initQueryCount ("repos").data [("OWNER").data] none [w8repo] =
      ⟨bump .graph_repos_stars initQueryCount, [], [none],
        some (.error (errorMessage .graph_repos_stars w8repo.status w8repo.text))⟩ ∧
    get_repository_stats initQueryCount ("stars").data [("OWNER").data] none [w8repo] =
      ⟨bump .graph_repos_stars initQueryCount, [], [none],
        some (.error (errorMessage .graph_repos_stars w8repo.status w8repo.text))⟩ ∧
    (∀ op status text, opStr op <+: errorMessage op status text ∧
      natStr status <:+: errorMessage op status text ∧
      text <:+ errorMessage op status text) :=
  discovery_error_fatal initQueryCount [("OWNER").data] none
    w8user [] w8follower [] w8repo w8repo [] []
    (by decide) (by decide) (by decide) (by decide)

end GithubApi

namespace GithubApi

/-- C9: The per-operation counter is incremented before the request is
issued, so a call increments its operation's counter by exactly one
even when the response is a failure (no status hypothesis below);
get_total_queries is the sum of the per-operation counts, so each
attempted request raises it by exactly one from its initial zero; and
get_query_stats returns a reference to a fresh copy, so a caller
mutating the returned dict leaves the client's own counters unchanged. -/
theorem query_counter_invariants (q : QueryCount) (heap : DictHeap) (client : Nat)
    (hclient : client < heap.length) :
    (∀ (ru : Response UserData) (restU : List (Response UserData)),
      (get_user_info q (ru :: restU)).1 = bump .user_getter q) ∧
    (∀ (rf : Response Nat) (restF : List (Response Nat)),
      (get_follower_count q (rf :: restF)).1 = bump .follower_getter q) ∧
    (∀ (owner_affiliation : List Str) (cursor : Option Str)
        (rr : Response RepoPage) (restR : RepoOracle),
      (get_repository_stats q ("repos").data owner_affiliation cursor (rr :: restR)).counts
        = bump .graph_repos_stars q) ∧
    (∀ (op : OpName) (q' : QueryCount),
      get_total_queries (bump op q') = get_total_queries q' + 1) ∧
    get_total_queries initQueryCount = 0 ∧
    ((get_query_stats heap client).2 ≠ client ∧
     ∀ v, heapGet (dictWrite (get_query_stats heap client).1
        (get_query_stats heap client).2 v) client = heapGet heap client) := by
  refine ⟨?_, ?_, ?_, ?_, rfl, ?_, ?_⟩
  · intro ru restU
    simp only [get_user_info]
    split <;> rfl
  · intro rf restF
    simp only [get_follower_count]
    split <;> rfl
  · intro owner_affiliation cursor rr restR
    rw [get_repository_stats, if_pos (rfl : ("repos").data = ("repos").data)]
    simp only []
    split <;> rfl
  · intro op q'
    cases op <;> simp [get_total_queries, queryValues, bump] <;> omega
  · simp only [get_query_stats]
    omega
  · intro v
    simp only [get_query_stats, dictWrite, heapGet]
    rw [List.getD_eq_getElem?_getD, List.getD_eq_getElem?_getD]
    rw [List.getElem?_set_ne (by omega)]
    rw [List.getElem?_append_left hclient]

/-- C9 witness: a one-dict heap with the client's dict at index 0. -/
theorem query_counter_invariants_witness :
    (get_query_stats [initQueryCount] 0).2 ≠ 0 ∧
    ∀ v, heapGet (dictWrite (get_query_stats [initQueryCount] 0).1
        (get_query_stats [initQueryCount] 0).2 v) 0 = heapGet [initQueryCount] 0 :=
  (query_counter_invariants initQueryCount [initQueryCount] 0 (by decide)).2.2.2.2.2

end GithubApi

namespace Config

lemma merge_website_eq (social : Social) (github_data : GithubSocial) :
    (merge_github_data social github_data).website =
      if optTruthy github_data.website && fieldUnset social.website
      then github_data.website else social.website := by
  simp only [merge_github_data]
  repeat' split
  all_goals simp_all

lemma merge_twitter_eq (social : Social) (github_data : GithubSocial) :
    (merge_github_data social github_data).twitter =
      if optTruthy github_data.twitter && fieldUnset social.twitter
      then some (("twitter.com/").data ++ github_data.twitter.getD [])
      else social.twitter := by
  simp only [merge_github_data]
  repeat' split
  all_goals simp_all

lemma merge_email_eq (social : Social) (github_data : GithubSocial) :
    (merge_github_data social github_data).email =
      if optTruthy github_data.email && fieldUnset social.email
      then github_data.email else social.email := by
  simp only [merge_github_data]
  repeat' split
  all_goals simp_all

/-- C4: Merging GitHub-sourced social data never overwrites a
configured field that already holds a non-empty value, and fills a
field that is absent or empty whenever a fetched value is present and
non-empty (twitter is stored with the twitter.com/ prefix the source
adds). -/
theorem merge_github_data_fill_semantics (social : Social) (github_data : GithubSocial) :
    (∀ w, social.website = some w → w ≠ [] →
      (merge_github_data social github_data).website = some w) ∧
    (∀ t, social.twitter = some t → t ≠ [] →
      (merge_github_data social github_data).twitter = some t) ∧
    (∀ e, social.email = some e → e ≠ [] →
      (merge_github_data social github_data).email = some e) ∧
    (∀ w, github_data.website = some w → w ≠ [] → fieldUnset social.website = true →
      (merge_github_data social github_data).website = some w) ∧
    (∀ t, github_data.twitter = some t → t ≠ [] → fieldUnset social.twitter = true →
      (merge_github_data social github_data).twitter =
        some (("twitter.com/").data ++ t)) ∧
    (∀ e, github_data.email = some e → e ≠ [] → fieldUnset social.email = true →
      (merge_github_data social github_data).email = some e) := by
  refine ⟨?_, ?_, ?_, ?_, ?_, ?_⟩ <;> intro x hx hne
  · rw [merge_website_eq, hx]
    have hset : fieldUnset (some x) = false := by
      simp [fieldUnset, List.isEmpty_iff, hne]
    simp [hset]
  · rw [merge_twitter_eq, hx]
    have hset : fieldUnset (some x) = false := by
      simp [fieldUnset, List.isEmpty_iff, hne]
    simp [hset]
  · rw [merge_email_eq, hx]
    have hset : fieldUnset (some x) = false := by
      simp [fieldUnset, List.isEmpty_iff, hne]
    simp [hset]
  · intro hunset
    have htr : optTruthy github_data.website = true := by
      rw [hx]; simp [optTruthy, List.isEmpty_iff, hne]
    rw [merge_website_eq, if_pos (by rw [htr, hunset]; rfl)]
    exact hx
  · intro hunset
    have htr : optTruthy github_data.twitter = true := by
      rw [hx]; simp [optTruthy, List.isEmpty_iff, hne]
    rw [merge_twitter_eq, if_pos (by rw [htr, hunset]; rfl), hx]
    rfl
  · intro hunset
    have htr : optTruthy github_data.email = true := by
      rw [hx]; simp [optTruthy, List.isEmpty_iff, hne]
    rw [merge_email_eq, if_pos (by rw [htr, hunset]; rfl)]
    exact hx

end Config

namespace Config

/-- C4 witness: the claim's own example pair — an empty configured
email is filled with the fetched address, a non-empty one is kept. -/
theorem merge_github_data_fill_semantics_witness :
    (merge_github_data ⟨none, none, some []⟩
        ⟨none, none, some (("a@b.com").data)⟩).email = some (("a@b.com").data) ∧
    (merge_github_data ⟨none, none, some (("c@d.com").data)⟩
        ⟨none, none, some (("a@b.com").data)⟩).email = some (("c@d.com").data) :=
  ⟨(merge_github_data_fill_semantics ⟨none, none, some []⟩
      ⟨none, none, some (("a@b.com").data)⟩).2.2.2.2.2
      (("a@b.com").data) rfl (by decide) (by decide),
   (merge_github_data_fill_semantics ⟨none, none, some (("c@d.com").data)⟩
      ⟨none, none, some (("a@b.com").data)⟩).2.2.1
      (("c@d.com").data) rfl (by decide)⟩

end Config

namespace Svg

/-- C5 counterexample: on the document consisting of the bare email
literal, with website value W and email value E, the code's source
order yields lewis@W while the same steps with the website and email
literal replacements interchanged yield E — the final text depends on
the order in which the individual replacements are applied (the
website literal is a substring of the email literal). -/
theorem substitution_order_dependent_cex :
    apply_replacements (("lewis@lewiselborn.com").data) cexFormatted (("a").data)
      cexConfig none ≠
    apply_replacements_swapped (("lewis@lewiselborn.com").data) cexFormatted (("a").data)
      cexConfig none := by decide

/-- C5 (amended): substitution is exact-match per step — each step
rewrites its input into the token-free pieces joined by the value, so
every occurrence of the token present at that step is replaced, and a
document not containing the token is unchanged by that step; the final
text is produced by applying the steps in the code's fixed order, on
which it can depend. -/
theorem substitution_exact_match_per_step (t v s : Str) :
    (¬ t <:+: s → replaceAll t v s = s) ∧
    (t ≠ [] → replaceAll t v s = joinWith v (splitOnL t s) ∧
      ∀ p ∈ splitOnL t s, ¬ t <:+: p) := by
  refine ⟨replaceAll_id_of_absent t v s, fun ht => ⟨replaceAll_eq_joinWith t v s, ?_⟩⟩
  exact splitOnFuel_pieces_free t ht s.length s le_rfl

/-- C5 witness: a document without the STARS token is unchanged by its
step, and a document with two occurrences is rewritten piecewise. -/
theorem substitution_exact_match_per_step_witness :
    replaceAll (("{STARS}").data) (("503").data) (("abc").data) = ("abc").data ∧
    replaceAll (("{STARS}").data) (("503").data) (("x{STARS}y{STARS}").data) =
      joinWith (("503").data) (splitOnL (("{STARS}").data) (("x{STARS}y{STARS}").data)) :=
  ⟨(substitution_exact_match_per_step (("{STARS}").data) (("503").data)
      (("abc").data)).1 (by decide),
   ((substitution_exact_match_per_step (("{STARS}").data) (("503").data)
      (("x{STARS}y{STARS}").data)).2 (by decide)).1⟩

/-- A document containing none of the unconditional tokens is returned
unchanged by the unconditional replacement steps. -/
lemma apply_replacements_base_id (content : Str) (formatted_data : FormattedData)
    (age_data : Str) (config_data : ConfigData)
    (h : ∀ t ∈ base_tokens, ¬ t <:+: content) :
    apply_replacements_base content formatted_data age_data config_data = content := by
  simp only [apply_replacements_base]
  rw [replaceAll_id_of_absent _ _ _ (h (("{COMMITS}").data) (by decide))]
  rw [replaceAll_id_of_absent _ _ _ (h (("{CONTRIB}").data) (by decide))]
  rw [replaceAll_id_of_absent _ _ _ (h (("{STARS}").data) (by decide))]
  rw [replaceAll_id_of_absent _ _ _ (h (("{LOC_TOTAL}").data) (by decide))]
  rw [replaceAll_id_of_absent _ _ _ (h (("{LOC_ADD}").data) (by decide))]
  rw [replaceAll_id_of_absent _ _ _ (h (("{LOC_DEL}").data) (by decide))]
  rw [replaceAll_id_of_absent _ _ _ (h (("{AGE}").data) (by decide))]
  rw [replaceAll_id_of_absent _ _ _ (h (("{ENVIRONMENT}").data) (by decide))]
  rw [replaceAll_id_of_absent _ _ _ (h (("{LANGUAGES}").data) (by decide))]
  rw [replaceAll_id_of_absent _ _ _ (h (("{SERVER_REGION}").data) (by decide))]
  rw [replaceAll_id_of_absent _ _ _ (h (("{HOST_PLATFORM}").data) (by decide))]
  rw [replaceAll_id_of_absent _ _ _ (h (("{LINKEDIN}").data) (by decide))]
  rw [replaceAll_id_of_absent _ _ _ (h (("twitter.com/lelborn").data) (by decide))]
  rw [replaceAll_id_of_absent _ _ _ (h (("lewiselborn.com").data) (by decide))]
  rw [replaceAll_id_of_absent _ _ _ (h (("lewis@lewiselborn.com").data) (by decide))]

/-- C6: when one substitution pass produces output in which no
recognized token (braced or bare literal) still appears, a second pass
with the same inputs returns that output byte-identically. -/
theorem substitution_idempotent (content : Str) (formatted_data : FormattedData)
    (age_data : Str) (config_data : ConfigData) (build_timestamp : Option Str)
    (h : ∀ t ∈ all_tokens,
      ¬ t <:+: apply_replacements content formatted_data age_data config_data build_timestamp) :
    apply_replacements
        (apply_replacements content formatted_data age_data config_data build_timestamp)
        formatted_data age_data config_data build_timestamp
      = apply_replacements content formatted_data age_data config_data build_timestamp := by
  set out := apply_replacements content formatted_data age_data config_data build_timestamp
    with hout
  have hbase : ∀ t ∈ base_tokens, ¬ t <:+: out :=
    fun t ht => h t (by simp [all_tokens]; exact Or.inl ht)
  simp only [apply_replacements]
  rw [apply_replacements_base_id out formatted_data age_data config_data hbase]
  split
  · exact replaceAll_id_of_absent _ _ _ (h (("{BUILD_TIMESTAMP}").data) (by decide))
  · rfl

/-- C6 witness: one pass on x{STARS}y leaves no token, and the second
pass is the identity on its output. -/
theorem substitution_idempotent_witness :
    apply_replacements
        (apply_replacements (("x{STARS}y").data) cexFormatted (("a").data) cexConfig none)
        cexFormatted (("a").data) cexConfig none
      = apply_replacements (("x{STARS}y").data) cexFormatted (("a").data) cexConfig none :=
  substitution_idempotent (("x{STARS}y").data) cexFormatted (("a").data) cexConfig none
    (by decide)

/-- C10: the BUILD_TIMESTAMP token is replaced only under a truthy
build timestamp argument: with None or an empty string the pass
reduces to the unconditional steps alone (and a document containing no
unconditional token — for instance one holding only the
BUILD_TIMESTAMP token — is returned unchanged, token untouched), while
a present non-empty timestamp is substituted after the unconditional
steps, which run in either case. -/
theorem build_timestamp_conditional (content : Str) (formatted_data : FormattedData)
    (age_data : Str) (config_data : ConfigData) (build_timestamp : Option Str) :
    (btTruthy build_timestamp = false →
      apply_replacements content formatted_data age_data config_data build_timestamp =
        apply_replacements_base content formatted_data age_data config_data) ∧
    (btTruthy build_timestamp = false → (∀ t ∈ base_tokens, ¬ t <:+: content) →
      apply_replacements content formatted_data age_data config_data build_timestamp
        = content) ∧
    (∀ ts, build_timestamp = some ts → ts ≠ [] →
      apply_replacements content formatted_data age_data config_data build_timestamp =
        replaceAll (("{BUILD_TIMESTAMP}").data) ts
          (apply_replacements_base content formatted_data age_data config_data)) := by
  refine ⟨?_, ?_, ?_⟩
  · intro hf
    simp [apply_replacements, hf]
  · intro hf hnone
    simp [apply_replacements, hf,
      apply_replacements_base_id content formatted_data age_data config_data hnone]
  · intro ts hts hne
    subst hts
    have htr : btTruthy (some ts) = true := by
      simp [btTruthy, List.isEmpty_iff, hne]
    simp [apply_replacements, htr]

/-- C10 witness: with a None build timestamp the document holding only
the BUILD_TIMESTAMP token comes back unchanged. -/
theorem build_timestamp_conditional_witness :
    apply_replacements (("{BUILD_TIMESTAMP}").data) cexFormatted (("a").data) cexConfig none
      = ("{BUILD_TIMESTAMP}").data :=
  (build_timestamp_conditional (("{BUILD_TIMESTAMP}").data) cexFormatted (("a").data)
    cexConfig none).2.1 (by decide) (by decide)

end Svg
